import Mathlib

/-!
Verification of the yoink clipboard-manager core (src/src-tauri/src).

Rust strings (`str`) are modelled as `List Char` (Unicode scalar values);
byte-level operations (`str::len`, byte slicing) go through an explicit
UTF-8 encoder.  The SQLite table `clipboard_items` is modelled as a
`List ClipboardItem`, and each SQL statement of `database.rs` is
translated to a list transformation with the same semantics
(`ORDER BY created_at DESC` compares the stored RFC3339 strings
byte-lexicographically, which on UTF-8 agrees with `String`'s order).
External crates (sha2, uuid, chrono clock) are modelled as parameters of
the functions that use them; the base64 standard-alphabet encoder is
modelled explicitly.
-/

namespace Yoink

/-- UTF-8 encoding of one Unicode scalar value, as byte values. -/
def charUtf8Bytes (c : Char) : List Nat :=
  if c.toNat < 0x80 then [c.toNat]
  else if c.toNat < 0x800 then [0xC0 + c.toNat / 64, 0x80 + c.toNat % 64]
  else if c.toNat < 0x10000 then
    [0xE0 + c.toNat / 4096, 0x80 + (c.toNat / 64) % 64, 0x80 + c.toNat % 64]
  else
    [0xF0 + c.toNat / 262144, 0x80 + (c.toNat / 4096) % 64, 0x80 + (c.toNat / 64) % 64,
     0x80 + c.toNat % 64]

/-- UTF-8 encoding of a string (Rust `str::as_bytes`). -/
def utf8Bytes : List Char → List Nat
  | [] => []
  | c :: cs => charUtf8Bytes c ++ utf8Bytes cs

/-- Rust `str::len`: the length in bytes. -/
def utf8ByteLen (s : List Char) : Nat := (utf8Bytes s).length

/-- Rust `str::is_char_boundary`: `i` is 0, the length, or the start of a
character's UTF-8 encoding. -/
def isUtf8Boundary : List Char → Nat → Bool
  | _, 0 => true
  | [], _ + 1 => false
  | c :: cs, i + 1 =>
    if i + 1 < (charUtf8Bytes c).length then false
    else isUtf8Boundary cs (i + 1 - (charUtf8Bytes c).length)

/-- Rust byte slicing `&s[i..j]`: returns the bytes when both indices are
character boundaries (with `i ≤ j`), and `none` where Rust panics. -/
def rustStrSlice (s : List Char) (i j : Nat) : Option (List Nat) :=
  if isUtf8Boundary s i ∧ isUtf8Boundary s j ∧ i ≤ j then
    some (((utf8Bytes s).drop i).take (j - i))
  else none

/-- Rust `char::is_whitespace` (Unicode White_Space property). -/
def rustIsWhitespace (c : Char) : Bool :=
  let n := c.toNat
  decide ((0x09 ≤ n ∧ n ≤ 0x0D) ∨ n = 0x20 ∨ n = 0x85 ∨ n = 0xA0 ∨ n = 0x1680 ∨
    (0x2000 ≤ n ∧ n ≤ 0x200A) ∨ n = 0x2028 ∨ n = 0x2029 ∨ n = 0x202F ∨
    n = 0x205F ∨ n = 0x3000)

/-- Rust `char::is_control` (Unicode Cc category). -/
def rustIsControl (c : Char) : Bool :=
  decide (c.toNat ≤ 0x1F ∨ (0x7F ≤ c.toNat ∧ c.toNat ≤ 0x9F))

/-- Rust `str::trim`. -/
def trimChars (s : List Char) : List Char :=
  ((s.dropWhile rustIsWhitespace).reverse.dropWhile rustIsWhitespace).reverse

/-- Substring test (Rust `str::contains` with a string pattern; for the
ASCII patterns used here byte-substring and character-substring agree). -/
def hasSubstr (needle : List Char) : List Char → Bool
  | [] => needle.isEmpty
  | c :: rest => needle.isPrefixOf (c :: rest) || hasSubstr needle rest

/-- ASCII lowercasing of one character.  Rust `str::to_lowercase` applies
Unicode lowercasing; the indicators compared against below are pure ASCII,
and no non-ASCII mapping can produce an occurrence of them that ASCII
lowercasing misses, so non-ASCII characters are modelled as fixed. -/
def asciiToLower (c : Char) : Char :=
  if c.toNat ≥ 65 ∧ c.toNat ≤ 90 then Char.ofNat (c.toNat + 32) else c

/-- The fixed indicator list of `looks_like_code` (clipboard.rs). -/
def code_indicators : List (List Char) :=
  ["function ".data, "const ".data, "let ".data, "var ".data, "import ".data,
   "export ".data, "class ".data, "def ".data, "fn ".data, "pub ".data,
   "async ".data, "await ".data, "return ".data, "if (".data, "for (".data,
   "while (".data, "=>".data, "->".data, "\x7b\x7d".data, "();".data]

/-- `looks_like_code` (clipboard.rs): at least two indicators occur in the
lowercased text. -/
def looks_like_code (text : List Char) : Bool :=
  let text_lower := text.map asciiToLower
  2 ≤ (code_indicators.filter (fun ind => hasSubstr (ind.map asciiToLower) text_lower)).length

/-- The file-path test of `detect_content_type`:
`trimmed.starts_with('/') || (trimmed.len() > 2 && &trimmed[1..3] == ":\\")`.
`none` models the panic of the byte slice at a non-boundary index;
`some b` is the value of the condition. -/
def pathCheck (t : List Char) : Option Bool :=
  if ['/'].isPrefixOf t then some true
  else if 2 < utf8ByteLen t then
    match rustStrSlice t 1 3 with
    | some bs => some (decide (bs = [0x3A, 0x5C]))
    | none => none
  else some false

/-- `detect_content_type` (clipboard.rs).  `none` models a panic. -/
def detect_content_type (text : List Char) : Option String :=
  match pathCheck (trimChars text) with
  | none => none
  | some true => some (if (trimChars text).contains '\n' then "files" else "file")
  | some false =>
    if "http://".data.isPrefixOf (trimChars text) ||
        "https://".data.isPrefixOf (trimChars text) ||
        "ftp://".data.isPrefixOf (trimChars text) then some "url"
    else if looks_like_code (trimChars text) then some "code"
    else some "text"

/-- `create_text_preview` (clipboard.rs): take 500 characters, drop control
characters other than newline and tab, and append `"..."` when the BYTE
length (`text.len()`) of the original exceeds 500. -/
def create_text_preview (text : List Char) : List Char :=
  let preview := (text.take 500).filter fun c => !rustIsControl c || c = '\n' || c = '\t'
  if 500 < utf8ByteLen text then preview ++ "...".data else preview

/-- The claim's path condition, following its words: the (trimmed) payload
begins with `/` or with `<letter>:\`. -/
def claimPathStart (t : List Char) : Bool :=
  ['/'].isPrefixOf t ||
  (match t with
   | a :: b :: c :: _ =>
     decide ((('a' ≤ a ∧ a ≤ 'z') ∨ ('A' ≤ a ∧ a ≤ 'Z')) ∧ b = ':' ∧ c = '\\')
   | _ => false)

/-- Classification as the claim words it, on the trimmed payload. -/
def claim_classify (t : List Char) : String :=
  if claimPathStart t then (if t.contains '\n' then "files" else "file")
  else if "http://".data.isPrefixOf t || "https://".data.isPrefixOf t ||
      "ftp://".data.isPrefixOf t then "url"
  else if looks_like_code t then "code"
  else "text"

/-- The amended path condition: the trimmed payload begins with `/`, or its
first character is a single-byte character (not necessarily a letter)
followed by `:` and `\`. -/
def amendedPathStart (t : List Char) : Bool :=
  ['/'].isPrefixOf t ||
  (match t with
   | a :: b :: c :: _ => decide ((charUtf8Bytes a).length = 1 ∧ b = ':' ∧ c = '\\')
   | _ => false)

/-- Classification as amended, on the trimmed payload. -/
def amended_classify (t : List Char) : String :=
  if amendedPathStart t then (if t.contains '\n' then "files" else "file")
  else if "http://".data.isPrefixOf t || "https://".data.isPrefixOf t ||
      "ftp://".data.isPrefixOf t then "url"
  else if looks_like_code t then "code"
  else "text"

/-- Preview as the claim words it: the first 500 characters of the text
after removing control characters other than newline/tab, with the marker
appended exactly when the original exceeds 500 CHARACTERS. -/
def claim_preview (text : List Char) : List Char :=
  ((text.filter fun c => !rustIsControl c || c = '\n' || c = '\t').take 500) ++
    (if 500 < text.length then "...".data else [])

/-- A row of the `clipboard_items` table (database.rs `ClipboardItem`);
`created_at`/`expires_at` hold the RFC3339 strings stored in the TEXT
columns. -/
structure ClipboardItem where
  id : String
  content_type : String
  content : String
  preview : String
  hash : String
  is_pinned : Bool
  collection_id : Option String
  created_at : String
  expires_at : Option String
deriving DecidableEq

/-- A row of the `collections` table. -/
structure Collection where
  id : String
  name : String
  color : String
  created_at : String
deriving DecidableEq

/-- The relational store: the tables touched by the claims.  `item_tags`
rows are `(item_id, tag_id)` pairs with a composite primary key. -/
structure DBState where
  items : List ClipboardItem
  collections : List Collection
  item_tags : List (String × String)
deriving DecidableEq

/-- `Database::insert_item`: INSERT fails on a primary-key violation. -/
def insert_item (item : ClipboardItem) (db : List ClipboardItem) :
    Except String (List ClipboardItem) :=
  if db.any fun r => decide (r.id = item.id) then
    Except.error "UNIQUE constraint failed: clipboard_items.id"
  else Except.ok (db ++ [item])

/-- SQLite `LIKE` matching (case-insensitive on ASCII, `%`/`_` wildcards). -/
def likeMatch : List Char → List Char → Bool
  | [], s => s.isEmpty
  | '%' :: ps, s =>
    likeMatch ps s ||
      (match s with
       | [] => false
       | _ :: s2 => likeMatch ('%' :: ps) s2)
  | '_' :: ps, s =>
    (match s with
     | [] => false
     | _ :: s2 => likeMatch ps s2)
  | p :: ps, s =>
    (match s with
     | [] => false
     | c :: s2 => asciiToLower p = asciiToLower c && likeMatch ps s2)
termination_by p s => p.length + s.length

/-- The search predicate of `get_items`:
`content LIKE '%s%' OR preview LIKE '%s%'`. -/
def searchMatch (s : String) (r : ClipboardItem) : Bool :=
  likeMatch ('%' :: s.data ++ ['%']) r.content.data ||
    likeMatch ('%' :: s.data ++ ['%']) r.preview.data

/-- The `is_pinned` INTEGER column value. -/
def pinInt (r : ClipboardItem) : Nat := if r.is_pinned then 1 else 0

/-- Row order of `ORDER BY is_pinned DESC, created_at DESC`:
`listOrd a b` holds when `a` may come before `b`. -/
def listOrd (a b : ClipboardItem) : Prop :=
  pinInt b < pinInt a ∨ (pinInt a = pinInt b ∧ b.created_at ≤ a.created_at)

instance : DecidableRel listOrd := fun a b =>
  inferInstanceAs (Decidable (pinInt b < pinInt a ∨ (pinInt a = pinInt b ∧ b.created_at ≤ a.created_at)))

instance : IsTotal ClipboardItem listOrd where
  total a b := by
    rcases Nat.lt_trichotomy (pinInt a) (pinInt b) with h | h | h
    · exact Or.inr (Or.inl h)
    · rcases le_total b.created_at a.created_at with hc | hc
      · exact Or.inl (Or.inr ⟨h, hc⟩)
      · exact Or.inr (Or.inr ⟨h.symm, hc⟩)
    · exact Or.inl (Or.inl h)

instance : IsTrans ClipboardItem listOrd where
  trans a b c hab hbc := by
    rcases hab with h1 | ⟨h1, h1c⟩ <;> rcases hbc with h2 | ⟨h2, h2c⟩
    · exact Or.inl (h2.trans h1)
    · exact Or.inl (h2 ▸ h1)
    · exact Or.inl (h1 ▸ h2)
    · exact Or.inr ⟨h1.trans h2, h2c.trans h1c⟩

/-- Row order of `ORDER BY created_at DESC` (enforce_limit's subquery). -/
def createdDesc (a b : ClipboardItem) : Prop := b.created_at ≤ a.created_at

instance : DecidableRel createdDesc := fun a b =>
  inferInstanceAs (Decidable (b.created_at ≤ a.created_at))

instance : IsTotal ClipboardItem createdDesc where
  total a b := le_total b.created_at a.created_at

instance : IsTrans ClipboardItem createdDesc where
  trans _ _ _ hab hbc := le_trans hbc hab

/-- `Database::get_items`: optional substring search, optional collection
filter, `ORDER BY is_pinned DESC, created_at DESC`, then OFFSET/LIMIT. -/
def get_items (db : List ClipboardItem) (limit offset : Nat)
    (search : Option String) (collection_id : Option String) : List ClipboardItem :=
  let f1 := match search with
    | none => db
    | some s => db.filter (searchMatch s)
  let f2 := match collection_id with
    | none => f1
    | some cid => f1.filter fun r => decide (r.collection_id = some cid)
  ((List.insertionSort listOrd f2).drop offset).take limit

/-- `Database::get_item`: the row with the given id (first match). -/
def get_item (db : List ClipboardItem) (id : String) : Option ClipboardItem :=
  db.find? fun r => decide (r.id = id)

/-- `Database::clear_history`: DELETE WHERE is_pinned = 0. -/
def clear_history (db : List ClipboardItem) : List ClipboardItem :=
  db.filter fun r => r.is_pinned

/-- `Database::enforce_limit`: delete every row whose id is neither the id
of a pinned row nor among the ids of the `limit` most recent non-pinned
rows. -/
def enforce_limit (limit : Nat) (db : List ClipboardItem) : List ClipboardItem :=
  let keep_ids :=
    ((db.filter fun r => r.is_pinned).map fun r => r.id) ++
      (((List.insertionSort createdDesc (db.filter fun r => !r.is_pinned)).take limit).map
        fun r => r.id)
  db.filter fun r => decide (r.id ∈ keep_ids)

/-- `Database::delete_collection`: null out the reference on items, then
delete the collection row. -/
def delete_collection (cid : String) (db : DBState) : DBState :=
  { db with
    items := db.items.map fun r =>
      if r.collection_id = some cid then { r with collection_id := none } else r,
    collections := db.collections.filter fun c => decide (c.id ≠ cid) }

/-- `Database::add_tag_to_item`: INSERT OR IGNORE under the composite
primary key `(item_id, tag_id)`. -/
def add_tag_to_item (item_id tag_id : String) (it : List (String × String)) :
    List (String × String) :=
  if (item_id, tag_id) ∈ it then it else it ++ [(item_id, tag_id)]

/-- `Database::remove_tag_from_item`:
DELETE WHERE item_id = ? AND tag_id = ?. -/
def remove_tag_from_item (item_id tag_id : String) (it : List (String × String)) :
    List (String × String) :=
  it.filter fun p => decide (p ≠ (item_id, tag_id))

/-- The base64 standard alphabet. -/
def base64Table : List Char :=
  "ABCDEFGHIJKLMNOPQRSTUVWXYZabcdefghijklmnopqrstuvwxyz0123456789+/".data

/-- base64 standard encoding with padding (the `STANDARD` engine used on
the image RGBA buffer). -/
def base64Encode : List Nat → List Char
  | [] => []
  | [a] => [base64Table.getD (a / 4) '?', base64Table.getD (a % 4 * 16) '?', '=', '=']
  | [a, b] =>
    [base64Table.getD (a / 4) '?', base64Table.getD (a % 4 * 16 + b / 16) '?',
     base64Table.getD (b % 16 * 4) '?', '=']
  | a :: b :: c :: rest =>
    [base64Table.getD (a / 4) '?', base64Table.getD (a % 4 * 16 + b / 16) '?',
     base64Table.getD (b % 16 * 4 + c / 64) '?', base64Table.getD (c % 64) '?'] ++
      base64Encode rest

/-- `read_image()` payload: dimensions and raw RGBA bytes. -/
structure ClipImage where
  width : Nat
  height : Nat
  rgba : List Nat
deriving DecidableEq

/-- What the system clipboard offers on one poll: the successful results of
`read_text()` and `read_image()`. -/
structure ClipContent where
  text : Option String
  image : Option ClipImage
deriving DecidableEq

/-- The watcher's observable state: the `clipboard_items` table, the
`ClipboardMonitor.last_hash` slot and the emitted `clipboard-changed`
events. -/
structure WatcherState where
  items : List ClipboardItem
  last_hash : Option String
  events : List ClipboardItem
deriving DecidableEq

/-- Result of one `check_clipboard` call.  `panic` models a Rust panic
(`detect_content_type`'s byte slice), `err` a `Result::Err`. -/
inductive PollOutcome where
  | panic : PollOutcome
  | err : String → PollOutcome
  | ok : Option ClipboardItem → WatcherState → PollOutcome
deriving DecidableEq

/-- The image half of `check_clipboard` (clipboard.rs lines 78-112);
`hBytes` models `compute_hash_bytes` (SHA-256 of the RGBA bytes) and
`new_id`/`now` the fresh UUID and `Utc::now().to_rfc3339()`. -/
def check_image (hBytes : List Nat → String) (clip : ClipContent)
    (new_id now : String) (st : WatcherState) : PollOutcome :=
  match clip.image with
  | none => PollOutcome.ok none st
  | some img =>
    if img.rgba = [] then PollOutcome.ok none st
    else
      let hash := hBytes img.rgba
      if st.last_hash = some hash then PollOutcome.ok none st
      else
        let item : ClipboardItem :=
          { id := new_id, content_type := "image", content := ⟨base64Encode img.rgba⟩,
            preview := "Image (" ++ toString img.width ++ "x" ++ toString img.height ++ ")",
            hash := hash, is_pinned := false, collection_id := none,
            created_at := now, expires_at := none }
        match insert_item item st.items with
        | Except.error e => PollOutcome.err e
        | Except.ok db1 =>
          PollOutcome.ok (some item)
            { items := enforce_limit 100 db1, last_hash := some hash,
              events := st.events ++ [item] }

/-- `check_clipboard` (clipboard.rs): text first, image second; dedup
against `last_hash`; on new content insert, enforce the cap of 100, update
`last_hash` and emit the event.  `hText` models `compute_hash` (SHA-256 of
the UTF-8 bytes). -/
def check_clipboard (hText : String → String) (hBytes : List Nat → String)
    (clip : ClipContent) (new_id now : String) (st : WatcherState) : PollOutcome :=
  match clip.text with
  | none => check_image hBytes clip new_id now st
  | some text =>
    if text = "" then check_image hBytes clip new_id now st
    else
      let hash := hText text
      if st.last_hash = some hash then PollOutcome.ok none st
      else
        match detect_content_type text.data with
        | none => PollOutcome.panic
        | some ctype =>
          let item : ClipboardItem :=
            { id := new_id, content_type := ctype, content := text,
              preview := ⟨create_text_preview text.data⟩, hash := hash,
              is_pinned := false, collection_id := none,
              created_at := now, expires_at := none }
          match insert_item item st.items with
          | Except.error e => PollOutcome.err e
          | Except.ok db1 =>
            PollOutcome.ok (some item)
              { items := enforce_limit 100 db1, last_hash := some hash,
                events := st.events ++ [item] }

/-- The external collaborators of `paste_item`: base64 decode success of
the stored content, the clipboard write, `window::hide_window`, and the
pieces of `paste_helper` (saved previous app, `activate_app`,
`simulate_paste`). -/
structure PasteEnv where
  decode_ok : String → Bool
  write_text : String → Except String Unit
  hide_window : Except String Unit
  prev_app : Option String
  activate : String → Except String Unit
  simulate : Except String Unit

/-- `paste_helper::paste_to_previous_app`: no saved app is a logged no-op;
otherwise activate (propagating failure), settle, then simulate Cmd+V. -/
def paste_to_previous_app (env : PasteEnv) : Except String Unit :=
  match env.prev_app with
  | none => Except.ok ()
  | some bid =>
    match env.activate bid with
    | Except.error e => Except.error e
    | Except.ok _ => env.simulate

/-- `paste_item` (clipboard.rs): returns the command result together with
the list of clipboard writes performed.  A missing id is a no-op; image
content is re-written as its preview text when the base64 decodes; a
`paste_to_previous_app` failure is logged and swallowed. -/
def paste_item (env : PasteEnv) (db : List ClipboardItem) (auto_paste : Bool)
    (id : String) : Except String Unit × List String :=
  match get_item db id with
  | none => (Except.ok (), [])
  | some item =>
    let write : Except String Unit × List String :=
      if item.content_type = "image" then
        if env.decode_ok item.content then (env.write_text item.preview, [item.preview])
        else (Except.ok (), [])
      else (env.write_text item.content, [item.content])
    match write with
    | (Except.error e, ws) => (Except.error e, ws)
    | (Except.ok _, ws) =>
      if auto_paste then
        match env.hide_window with
        | Except.error e => (Except.error e, ws)
        | Except.ok _ =>
          match paste_to_previous_app env with
          | Except.error _ => (Except.ok (), ws)
          | Except.ok _ => (Except.ok (), ws)
      else
        match env.hide_window with
        | Except.error e => (Except.error e, ws)
        | Except.ok _ => (Except.ok (), ws)

/-- A sample pinned row, used to instantiate witnesses. -/
def sampleP : ClipboardItem :=
  { id := "p1", content_type := "text", content := "keepme", preview := "keepme",
    hash := "hp", is_pinned := true, collection_id := none,
    created_at := "2024-01-02T00:00:00+00:00", expires_at := none }

/-- A sample non-pinned row, used to instantiate witnesses. -/
def sampleU : ClipboardItem :=
  { id := "u1", content_type := "text", content := "hello", preview := "hello",
    hash := "hu", is_pinned := false, collection_id := none,
    created_at := "2024-01-01T00:00:00+00:00", expires_at := none }

/-- A second sample non-pinned row, used to instantiate witnesses. -/
def sampleU2 : ClipboardItem :=
  { id := "u2", content_type := "text", content := "world", preview := "world",
    hash := "hv", is_pinned := false, collection_id := none,
    created_at := "2024-01-03T00:00:00+00:00", expires_at := none }

/-- A sample paste environment in which the clipboard write and the window
hide succeed but the simulated keystroke fails, used to instantiate
witnesses. -/
def sampleEnv : PasteEnv :=
  { decode_ok := fun _ => true, write_text := fun _ => Except.ok (),
    hide_window := Except.ok (), prev_app := some "com.apple.TextEdit",
    activate := fun _ => Except.ok (), simulate := Except.error "osascript failed" }

/-! ### Helper lemmas about the UTF-8 model -/

theorem charUtf8Bytes_length_pos (c : Char) : 0 < (charUtf8Bytes c).length := by
  unfold charUtf8Bytes
  split_ifs <;> simp

theorem charUtf8Bytes_of_lt {c : Char} (h : c.toNat < 0x80) :
    charUtf8Bytes c = [c.toNat] := by
  unfold charUtf8Bytes
  rw [if_pos h]

theorem charUtf8Bytes_head_lt {c : Char} {x : Nat} {xs : List Nat}
    (h : charUtf8Bytes c = x :: xs) (hx : x < 0x80) : x = c.toNat ∧ xs = [] := by
  unfold charUtf8Bytes at h
  split_ifs at h with h1 h2 h3 <;> simp only [List.cons.injEq] at h
  · exact ⟨h.1.symm, h.2.symm⟩
  · omega
  · omega
  · omega

theorem charUtf8Bytes_len_one {c : Char} (h : (charUtf8Bytes c).length = 1) :
    charUtf8Bytes c = [c.toNat] := by
  obtain ⟨x, xs, hx⟩ : ∃ x xs, charUtf8Bytes c = x :: xs := by
    cases hc : charUtf8Bytes c with
    | nil => exact absurd (hc ▸ charUtf8Bytes_length_pos c) (by simp)
    | cons x xs => exact ⟨x, xs, rfl⟩
  have hxs : xs = [] := by
    have := hx ▸ h
    simpa using this
  subst hxs
  have hlt : x < 0x80 := by
    by_contra hge
    unfold charUtf8Bytes at hx
    split_ifs at hx with h1 h2 h3 <;> simp only [List.cons.injEq] at hx
    · obtain ⟨h, -⟩ := hx
      omega
    · exact absurd hx.2 (by simp)
    · exact absurd hx.2 (by simp)
    · exact absurd hx.2 (by simp)
  rw [hx, (charUtf8Bytes_head_lt hx hlt).1]

theorem char_eq_of_toNat_eq {c d : Char} (h : c.toNat = d.toNat) : c = d := by
  have hc := Char.ofNat_toNat c
  have hd := Char.ofNat_toNat d
  rw [← hc, ← hd, h]

theorem length_le_utf8ByteLen (t : List Char) : t.length ≤ utf8ByteLen t := by
  induction t with
  | nil => simp [utf8ByteLen, utf8Bytes]
  | cons c cs ih =>
    have := charUtf8Bytes_length_pos c
    simp only [utf8ByteLen, utf8Bytes, List.length_append, List.length_cons]
    simp only [utf8ByteLen] at ih
    omega

theorem isUtf8Boundary_zero (s : List Char) : isUtf8Boundary s 0 = true := by
  cases s <;> rfl

theorem isUtf8Boundary_cons (c : Char) (cs : List Char) (i : Nat) (hi : i ≠ 0) :
    isUtf8Boundary (c :: cs) i =
      if i < (charUtf8Bytes c).length then false
      else isUtf8Boundary cs (i - (charUtf8Bytes c).length) := by
  cases i with
  | zero => exact absurd rfl hi
  | succ n => rfl

theorem isUtf8Boundary_nil (i : Nat) (hi : i ≠ 0) : isUtf8Boundary [] i = false := by
  cases i with
  | zero => exact absurd rfl hi
  | succ n => rfl

/-! ### Claim theorems -/

/-- C5: `detect_content_type` is claimed to be total (the byte slice
`trimmed[1..3]` never evaluated at a non-character boundary).  The code
violates this: on the payload `"日本"` (six bytes, characters of three
bytes each) the guard `trimmed.len() > 2` passes and `&trimmed[1..3]`
slices at byte 1, which is not a character boundary, so the function
panics.  This theorem evaluates the embedded code at that failing input:
the outcome is the panic value. -/
theorem detect_content_type_panics : detect_content_type "日本".data = none := by decide

/-- C7: `clear_history` deletes exactly the non-pinned rows: the result is
a sublist of the table (rows kept unmodified, nothing added), no
non-pinned row remains, and every pinned row is still present. -/
theorem clear_history_spec (db : List ClipboardItem) :
    List.Sublist (clear_history db) db
    ∧ (∀ r ∈ clear_history db, r.is_pinned = true)
    ∧ (∀ r ∈ db, r.is_pinned = true → r ∈ clear_history db) := by
  refine ⟨List.filter_sublist db, ?_, ?_⟩
  · intro r hr
    exact (List.mem_filter.mp hr).2
  · intro r hr hp
    exact List.mem_filter.mpr ⟨hr, hp⟩

/-- C7 witness: on a concrete two-row table the pinned row survives
`clear_history`. -/
theorem clear_history_spec_witness :
    sampleP ∈ [sampleP, sampleU] ∧ sampleP.is_pinned = true ∧
      sampleP ∈ clear_history [sampleP, sampleU] :=
  ⟨by decide, by decide,
    (clear_history_spec [sampleP, sampleU]).2.2 sampleP (by decide) (by decide)⟩

/-- C9: deleting a collection nulls `collection_id` on exactly the rows
that referenced it and deletes no item: row count and every other column
are unchanged, the referencing rows end with `collection_id = none`, and
afterwards no row references the deleted collection. -/
theorem delete_collection_spec (cid : String) (db : DBState) :
    (delete_collection cid db).items.length = db.items.length
    ∧ (delete_collection cid db).items.map (fun r => r.id) = db.items.map (fun r => r.id)
    ∧ (delete_collection cid db).items.map (fun r => r.content_type)
        = db.items.map (fun r => r.content_type)
    ∧ (delete_collection cid db).items.map (fun r => r.content)
        = db.items.map (fun r => r.content)
    ∧ (delete_collection cid db).items.map (fun r => r.preview)
        = db.items.map (fun r => r.preview)
    ∧ (delete_collection cid db).items.map (fun r => r.hash)
        = db.items.map (fun r => r.hash)
    ∧ (delete_collection cid db).items.map (fun r => r.is_pinned)
        = db.items.map (fun r => r.is_pinned)
    ∧ (delete_collection cid db).items.map (fun r => r.created_at)
        = db.items.map (fun r => r.created_at)
    ∧ (delete_collection cid db).items.map (fun r => r.expires_at)
        = db.items.map (fun r => r.expires_at)
    ∧ (delete_collection cid db).items.map (fun r => r.collection_id)
        = db.items.map (fun r => if r.collection_id = some cid then none else r.collection_id)
    ∧ (delete_collection cid db).items.countP (fun r => decide (r.collection_id = some cid))
        = 0 := by
  simp only [delete_collection, List.length_map, List.map_map, List.countP_map]
  refine ⟨trivial, ?_, ?_, ?_, ?_, ?_, ?_, ?_, ?_, ?_, ?_⟩
  case _ => exact List.map_congr_left fun r _ => by dsimp [Function.comp]; split <;> rfl
  case _ => exact List.map_congr_left fun r _ => by dsimp [Function.comp]; split <;> rfl
  case _ => exact List.map_congr_left fun r _ => by dsimp [Function.comp]; split <;> rfl
  case _ => exact List.map_congr_left fun r _ => by dsimp [Function.comp]; split <;> rfl
  case _ => exact List.map_congr_left fun r _ => by dsimp [Function.comp]; split <;> rfl
  case _ => exact List.map_congr_left fun r _ => by dsimp [Function.comp]; split <;> rfl
  case _ => exact List.map_congr_left fun r _ => by dsimp [Function.comp]; split <;> rfl
  case _ => exact List.map_congr_left fun r _ => by dsimp [Function.comp]; split <;> rfl
  case _ => exact List.map_congr_left fun r _ => by dsimp [Function.comp]; split <;> rfl
  case _ =>
    rw [List.countP_eq_zero]
    intro r _
    dsimp [Function.comp]
    split
    · simp
    · simpa using (by assumption : ¬r.collection_id = some cid)

/-- C9 witness: the cascade evaluated on a one-item store referencing the
deleted collection. -/
theorem delete_collection_spec_witness :
    (delete_collection "c1"
        { items := [{ sampleU with collection_id := some "c1" }], collections := [],
          item_tags := [] }).items.countP
        (fun r => decide (r.collection_id = some "c1")) = 0 :=
  (delete_collection_spec "c1"
    { items := [{ sampleU with collection_id := some "c1" }], collections := [],
      item_tags := [] }).2.2.2.2.2.2.2.2.2.2

/-- C10: tag attach/detach idempotence.  Under the composite primary key
(at most one `(item_id, tag_id)` row), attaching twice equals attaching
once (the duplicate INSERT OR IGNORE is a no-op, not an error), exactly
one association row results, and detaching a non-existent association
leaves the table unchanged. -/
theorem tag_association_idempotent (item_id tag_id : String)
    (it : List (String × String)) (hpk : it.count (item_id, tag_id) ≤ 1) :
    add_tag_to_item item_id tag_id (add_tag_to_item item_id tag_id it)
      = add_tag_to_item item_id tag_id it
    ∧ (add_tag_to_item item_id tag_id (add_tag_to_item item_id tag_id it)).count
        (item_id, tag_id) = 1
    ∧ ((item_id, tag_id) ∉ it → remove_tag_from_item item_id tag_id it = it) := by
  have hmem : (item_id, tag_id) ∈ add_tag_to_item item_id tag_id it := by
    unfold add_tag_to_item
    split
    · assumption
    · exact List.mem_append_right _ (by simp)
  have hidem : add_tag_to_item item_id tag_id (add_tag_to_item item_id tag_id it)
      = add_tag_to_item item_id tag_id it := by
    show (if (item_id, tag_id) ∈ add_tag_to_item item_id tag_id it then
          add_tag_to_item item_id tag_id it
        else add_tag_to_item item_id tag_id it ++ [(item_id, tag_id)])
        = add_tag_to_item item_id tag_id it
    rw [if_pos hmem]
  refine ⟨hidem, ?_, ?_⟩
  · rw [hidem]
    unfold add_tag_to_item
    split
    · have h1 : 0 < it.count (item_id, tag_id) := List.count_pos_iff.mpr (by assumption)
      omega
    · rw [List.count_append, List.count_eq_zero.mpr (by assumption)]
      simp
  · intro hnot
    apply List.filter_eq_self.mpr
    intro p hp
    exact decide_eq_true fun heq => hnot (heq ▸ hp)

/-- C10 witness: attach twice on the empty association table. -/
theorem tag_association_idempotent_witness :
    ([] : List (String × String)).count ("i1", "t1") ≤ 1
    ∧ (add_tag_to_item "i1" "t1" (add_tag_to_item "i1" "t1" [])
         = add_tag_to_item "i1" "t1" []
       ∧ (add_tag_to_item "i1" "t1" (add_tag_to_item "i1" "t1" [])).count ("i1", "t1") = 1
       ∧ (("i1", "t1") ∉ ([] : List (String × String)) →
           remove_tag_from_item "i1" "t1" [] = [])) :=
  ⟨by decide, tag_association_idempotent "i1" "t1" [] (by decide)⟩

set_option maxRecDepth 40000 in
/-- C4 counterexample: the claim's preview (filter the whole text, take the
first 500 characters, marker exactly when the text exceeds 500 CHARACTERS)
disagrees with the code on two concrete inputs.  On 251 copies of `'é'`
(251 characters but 502 UTF-8 bytes) the code appends the marker although
nothing was truncated; on 500 control characters followed by `'a'` the
code takes 500 characters BEFORE filtering and so drops the `'a'`. -/
theorem create_text_preview_claim_cex :
    create_text_preview (List.replicate 251 'é') ≠ claim_preview (List.replicate 251 'é')
    ∧ create_text_preview (List.replicate 500 '\x01' ++ ['a'])
        ≠ claim_preview (List.replicate 500 '\x01' ++ ['a']) := by
  constructor <;> decide

/-- C4 as amended: the stored preview is the first 500 CHARACTERS of the
text with control characters other than newline/tab then removed, followed
by the `"..."` marker exactly when the UTF-8 BYTE length of the original
exceeds 500; the visible body stays within 500 characters and contains no
stripped control character. -/
theorem create_text_preview_amended (text : List Char) :
    create_text_preview text =
      ((text.take 500).filter fun c => !rustIsControl c || c = '\n' || c = '\t') ++
        (if 500 < utf8ByteLen text then "...".data else [])
    ∧ ((text.take 500).filter fun c => !rustIsControl c || c = '\n' || c = '\t').length ≤ 500
    ∧ (∀ c ∈ (text.take 500).filter fun c => !rustIsControl c || c = '\n' || c = '\t',
        rustIsControl c = false ∨ c = '\n' ∨ c = '\t') := by
  refine ⟨?_, ?_, ?_⟩
  · unfold create_text_preview
    split <;> simp
  · calc ((text.take 500).filter fun c => !rustIsControl c || c = '\n' || c = '\t').length
        ≤ (text.take 500).length := List.length_filter_le _ _
      _ ≤ 500 := List.length_take_le 500 text
  · intro c hc
    have h := (List.mem_filter.mp hc).2
    simp only [Bool.or_eq_true, Bool.not_eq_true', decide_eq_true_eq] at h
    tauto

/-- C4 amended witness: the amended description evaluated on a concrete
input containing a control character. -/
theorem create_text_preview_amended_witness :
    create_text_preview "a\x01b".data =
      ((("a\x01b".data).take 500).filter fun c => !rustIsControl c || c = '\n' || c = '\t') ++
        (if 500 < utf8ByteLen "a\x01b".data then "...".data else []) :=
  (create_text_preview_amended "a\x01b".data).1

/-- The first two bytes of a string's UTF-8 encoding are `":\\"` exactly
when its first two characters are `':'` and `'\\'`. -/
theorem take_two_utf8_eq_iff (t : List Char) :
    (utf8Bytes t).take 2 = [0x3A, 0x5C] ↔ ∃ rest, t = ':' :: '\\' :: rest := by
  constructor
  · intro h
    rcases t with _ | ⟨b1, t3⟩
    · simp [utf8Bytes] at h
    · obtain ⟨x, xs, hx⟩ : ∃ x xs, charUtf8Bytes b1 = x :: xs := by
        cases hc : charUtf8Bytes b1 with
        | nil => exact absurd (hc ▸ charUtf8Bytes_length_pos b1) (by simp)
        | cons x xs => exact ⟨x, xs, rfl⟩
      rw [show utf8Bytes (b1 :: t3) = x :: (xs ++ utf8Bytes t3) by simp [utf8Bytes, hx]] at h
      simp only [List.take_succ_cons, List.cons.injEq] at h
      obtain ⟨hx58, htail⟩ := h
      obtain ⟨hxb, hxs⟩ := charUtf8Bytes_head_lt hx (by omega)
      have hb1 : b1 = ':' := char_eq_of_toNat_eq (by rw [← hxb, hx58]; rfl)
      subst hxs
      rw [List.nil_append] at htail
      rcases t3 with _ | ⟨c1, t4⟩
      · simp [utf8Bytes] at htail
      · obtain ⟨y, ys, hy⟩ : ∃ y ys, charUtf8Bytes c1 = y :: ys := by
          cases hc : charUtf8Bytes c1 with
          | nil => exact absurd (hc ▸ charUtf8Bytes_length_pos c1) (by simp)
          | cons y ys => exact ⟨y, ys, rfl⟩
        rw [show utf8Bytes (c1 :: t4) = y :: (ys ++ utf8Bytes t4) by simp [utf8Bytes, hy]] at htail
        simp only [List.take_succ_cons, List.take_zero, List.cons.injEq] at htail
        obtain ⟨hy92, -⟩ := htail
        obtain ⟨hyb, -⟩ := charUtf8Bytes_head_lt hy (by omega)
        have hc1 : c1 = '\\' := char_eq_of_toNat_eq (by rw [← hyb, hy92]; rfl)
        exact ⟨t4, by rw [hb1, hc1]⟩
  · rintro ⟨rest, rfl⟩
    have h1 : charUtf8Bytes ':' = [0x3A] := by decide
    have h2 : charUtf8Bytes '\\' = [0x5C] := by decide
    simp [utf8Bytes, h1, h2]

/-- The value computed by the file-path test of `detect_content_type`,
whenever it does not panic, agrees with the amended path condition. -/
theorem pathCheck_some_eq {t : List Char} {b : Bool} (h : pathCheck t = some b) :
    b = amendedPathStart t := by
  unfold pathCheck at h
  cases hs : List.isPrefixOf ['/'] t with
  | true =>
    rw [hs] at h
    simp only [if_true, Option.some.injEq] at h
    subst h
    simp [amendedPathStart, hs]
  | false =>
    rw [hs] at h
    simp only [Bool.false_eq_true, if_false] at h
    by_cases hl : 2 < utf8ByteLen t
    · rw [if_pos hl] at h
      cases hsl : rustStrSlice t 1 3 with
      | none =>
        rw [hsl] at h
        exact absurd h (by simp)
      | some bs =>
        rw [hsl] at h
        simp only [Option.some.injEq] at h
        subst h
        unfold rustStrSlice at hsl
        split_ifs at hsl with hcond
        · obtain ⟨hb1, hb3, -⟩ := hcond
          simp only [Option.some.injEq] at hsl
          rcases t with _ | ⟨a, t2⟩
          · simp [utf8ByteLen, utf8Bytes] at hl
          · have ha1 : (charUtf8Bytes a).length = 1 := by
              rw [isUtf8Boundary_cons a t2 1 one_ne_zero] at hb1
              by_cases hlt : 1 < (charUtf8Bytes a).length
              · rw [if_pos hlt] at hb1
                exact absurd hb1 (by simp)
              · have := charUtf8Bytes_length_pos a
                omega
            have haeq : charUtf8Bytes a = [a.toNat] := charUtf8Bytes_len_one ha1
            have hbs : bs = (utf8Bytes t2).take 2 := by
              rw [← hsl]
              simp [utf8Bytes, haeq]
            by_cases hbv : bs = [0x3A, 0x5C]
            · obtain ⟨rest, hrest⟩ := (take_two_utf8_eq_iff t2).mp (hbs ▸ hbv)
              subst hrest
              simp [amendedPathStart, hs, hbv, ha1]
            · rw [decide_eq_false hbv]
              rcases t2 with _ | ⟨b1, t3⟩
              · simp [amendedPathStart, hs]
              · rcases t3 with _ | ⟨c1, t4⟩
                · simp [amendedPathStart, hs]
                · simp only [amendedPathStart, hs, Bool.false_or]
                  symm
                  apply decide_eq_false
                  rintro ⟨-, rfl, rfl⟩
                  exact hbv (hbs.trans ((take_two_utf8_eq_iff _).mpr ⟨t4, rfl⟩))
    · rw [if_neg hl] at h
      simp only [Option.some.injEq] at h
      subst h
      rcases t with _ | ⟨a, t2⟩
      · simp [amendedPathStart]
      · rcases t2 with _ | ⟨b1, t3⟩
        · simp [amendedPathStart, hs]
        · rcases t3 with _ | ⟨c1, t4⟩
          · simp [amendedPathStart, hs]
          · exfalso
            have h3 : 3 ≤ (a :: b1 :: c1 :: t4).length := by simp
            have := length_le_utf8ByteLen (a :: b1 :: c1 :: t4)
            omega

/-- C2 counterexample: the payload `"0:\a"` does not begin with `/` or
`<letter>:\`, so by the claim's decision order it classifies as `text`;
the code only compares the bytes at offsets 1..3 with `":\\"` and returns
`file`. -/
theorem detect_content_type_claim_cex :
    detect_content_type "0:\\a".data = some "file"
    ∧ claim_classify (trimChars "0:\\a".data) = "text" := by
  constructor <;> decide

/-- C2 as amended: the five classification examples hold, and whenever
`detect_content_type` returns (does not panic) its result follows the
claimed decision order with one change: the `file`/`files` test accepts
any single-byte first character followed by `:\`, not only a letter. -/
theorem detect_content_type_amended :
    detect_content_type "https://example.com".data = some "url"
    ∧ detect_content_type "/usr/local/bin".data = some "file"
    ∧ detect_content_type "/a\n/b".data = some "files"
    ∧ detect_content_type "const x = 1; function f() \x7b\x7d".data = some "code"
    ∧ detect_content_type "hello world".data = some "text"
    ∧ ∀ (text : List Char) (r : String), detect_content_type text = some r →
        r = amended_classify (trimChars text) := by
  refine ⟨by decide, by decide, by decide, by decide, by decide, ?_⟩
  intro text r h
  unfold detect_content_type at h
  cases hp : pathCheck (trimChars text) with
  | none =>
    rw [hp] at h
    exact absurd h (by simp)
  | some pb =>
    rw [hp] at h
    have hb := pathCheck_some_eq hp
    cases pb with
    | true =>
      simp only [Option.some.injEq] at h
      unfold amended_classify
      rw [← hb, if_pos rfl]
      exact h.symm
    | false =>
      have h2 : (if ("http://".data.isPrefixOf (trimChars text) ||
            "https://".data.isPrefixOf (trimChars text) ||
            "ftp://".data.isPrefixOf (trimChars text)) = true then some "url"
          else if looks_like_code (trimChars text) = true then some "code"
          else (some "text" : Option String)) = some r := h
      unfold amended_classify
      rw [← hb]
      simp only [Bool.false_eq_true, if_false]
      split at h2
      · simp_all
      · split at h2 <;> simp_all

/-- C2 amended witness: the amended decision order evaluated at a concrete
input. -/
theorem detect_content_type_amended_witness :
    detect_content_type "D:\\files\\a.txt".data = some "file"
    ∧ "file" = amended_classify (trimChars "D:\\files\\a.txt".data) :=
  ⟨by decide,
   detect_content_type_amended.2.2.2.2.2 "D:\\files\\a.txt".data "file" (by decide)⟩

/-- A list sorted by `is_pinned DESC, created_at DESC` is pairwise in the
claimed order: pinned rows never follow non-pinned ones, and rows with the
same pin flag are newest-first. -/
theorem pairwise_of_sorted_listOrd {l : List ClipboardItem} (h : l.Sorted listOrd) :
    l.Pairwise fun a b => (b.is_pinned = true → a.is_pinned = true)
      ∧ (a.is_pinned = b.is_pinned → b.created_at ≤ a.created_at) := by
  refine h.imp ?_
  intro a b hab
  rcases hab with h1 | ⟨h1, h2⟩
  · constructor
    · intro hb
      cases ha : a.is_pinned
      · exfalso
        simp [pinInt, ha, hb] at h1
      · rfl
    · intro he
      exfalso
      rw [pinInt, pinInt, he] at h1
      exact lt_irrefl _ h1
  · constructor
    · intro hb
      cases ha : a.is_pinned
      · exfalso
        rw [pinInt, pinInt, ha, hb] at h1
        simp at h1
      · rfl
    · intro _
      exact h2

/-- C6: for every store population, limit, offset, search string and
collection filter, `get_items` returns a list in which every pinned row
precedes every non-pinned row and, within equal pin flags, rows are in
descending `created_at` (RFC3339 string) order. -/
theorem get_items_ordering (db : List ClipboardItem) (limit offset : Nat)
    (search collection_id : Option String) :
    (get_items db limit offset search collection_id).Pairwise
      fun a b => (b.is_pinned = true → a.is_pinned = true)
        ∧ (a.is_pinned = b.is_pinned → b.created_at ≤ a.created_at) :=
  ((pairwise_of_sorted_listOrd (List.sorted_insertionSort listOrd _)).sublist
      (List.drop_sublist _ _)).sublist (List.take_sublist _ _)

/-- C6 witness: the ordering invariant evaluated on a concrete two-row
store. -/
theorem get_items_ordering_witness :
    (get_items [sampleU, sampleP] 10 0 none none).Pairwise
      (fun a b => (b.is_pinned = true → a.is_pinned = true)
        ∧ (a.is_pinned = b.is_pinned → b.created_at ≤ a.created_at)) :=
  get_items_ordering [sampleU, sampleP] 10 0 none none

/-- C3: after `enforce_limit N`, with distinct primary keys, at most `N`
non-pinned rows remain, every pinned row survives, no row is invented, and
the surviving non-pinned rows are exactly the `N` most recent non-pinned
rows (the `ORDER BY created_at DESC LIMIT N` subquery): every survivor is
among them, and each of them survives. -/
theorem enforce_limit_spec (N : Nat) (db : List ClipboardItem)
    (hnd : (db.map fun r => r.id).Nodup) :
    ((enforce_limit N db).filter fun r => !r.is_pinned).length ≤ N
    ∧ (∀ r ∈ db, r.is_pinned = true → r ∈ enforce_limit N db)
    ∧ (∀ r ∈ enforce_limit N db, r ∈ db)
    ∧ (∀ r ∈ enforce_limit N db, r.is_pinned = false →
        r ∈ (List.insertionSort createdDesc (db.filter fun r => !r.is_pinned)).take N)
    ∧ (∀ r ∈ (List.insertionSort createdDesc (db.filter fun r => !r.is_pinned)).take N,
        r ∈ enforce_limit N db) := by
  have hinj := List.inj_on_of_nodup_map hnd
  have hchar : ∀ r ∈ enforce_limit N db, r.is_pinned = false →
      r ∈ (List.insertionSort createdDesc (db.filter fun r => !r.is_pinned)).take N := by
    intro r hr hnp
    obtain ⟨hrdb, hid⟩ := List.mem_filter.mp hr
    have hid2 := of_decide_eq_true hid
    rcases List.mem_append.mp hid2 with hL | hR
    · obtain ⟨p, hp, hpid⟩ := List.mem_map.mp hL
      obtain ⟨hpdb, hpp⟩ := List.mem_filter.mp hp
      have : p = r := hinj hpdb hrdb hpid
      subst this
      rw [hnp] at hpp
      exact absurd hpp (by simp)
    · obtain ⟨k, hk, hkid⟩ := List.mem_map.mp hR
      have hkdb : k ∈ db :=
        List.mem_of_mem_filter
          ((List.perm_insertionSort createdDesc _).subset (List.take_subset _ _ hk))
      have : k = r := hinj hkdb hrdb hkid
      subst this
      exact hk
  refine ⟨?_, ?_, ?_, hchar, ?_⟩
  · have hE_sub_db :
        List.Sublist ((enforce_limit N db).filter fun r => !r.is_pinned) db :=
      (List.filter_sublist _).trans (List.filter_sublist db)
    have hEnodup : ((enforce_limit N db).filter fun r => !r.is_pinned).Nodup :=
      List.Nodup.of_map _ (hnd.sublist (hE_sub_db.map _))
    have hET : ((enforce_limit N db).filter fun r => !r.is_pinned) ⊆
        (List.insertionSort createdDesc (db.filter fun r => !r.is_pinned)).take N := by
      intro r hr
      obtain ⟨hr1, hr2⟩ := List.mem_filter.mp hr
      exact hchar r hr1 (by simpa using hr2)
    calc ((enforce_limit N db).filter fun r => !r.is_pinned).length
        ≤ ((List.insertionSort createdDesc (db.filter fun r => !r.is_pinned)).take N).length :=
          (hEnodup.subperm hET).length_le
      _ ≤ N := List.length_take_le _ _
  · intro r hr hp
    refine List.mem_filter.mpr ⟨hr, decide_eq_true ?_⟩
    exact List.mem_append_left _
      (List.mem_map_of_mem _ (List.mem_filter.mpr ⟨hr, hp⟩))
  · intro r hr
    exact List.mem_of_mem_filter hr
  · intro k hk
    have hkdb : k ∈ db :=
      List.mem_of_mem_filter
        ((List.perm_insertionSort createdDesc _).subset (List.take_subset _ _ hk))
    refine List.mem_filter.mpr ⟨hkdb, decide_eq_true ?_⟩
    exact List.mem_append_right _ (List.mem_map_of_mem _ hk)

/-- C3 witness: a concrete three-row table (one pinned, two not) capped at
one non-pinned row; the pinned row and the most recent non-pinned row
(`sampleU2`) survive. -/
theorem enforce_limit_spec_witness :
    ([sampleP, sampleU, sampleU2].map fun r => r.id).Nodup
    ∧ ((enforce_limit 1 [sampleP, sampleU, sampleU2]).filter fun r => !r.is_pinned).length ≤ 1
    ∧ sampleP ∈ enforce_limit 1 [sampleP, sampleU, sampleU2]
    ∧ sampleU2 ∈ enforce_limit 1 [sampleP, sampleU, sampleU2] :=
  ⟨by decide,
   (enforce_limit_spec 1 [sampleP, sampleU, sampleU2] (by decide)).1,
   (enforce_limit_spec 1 [sampleP, sampleU, sampleU2] (by decide)).2.1 sampleP (by decide)
     (by decide),
   (enforce_limit_spec 1 [sampleP, sampleU, sampleU2] (by decide)).2.2.2.2 sampleU2
     (by
       have hns : ¬ createdDesc sampleU sampleU2 := by
         show ¬ (sampleU2.created_at ≤ sampleU.created_at)
         rw [String.le_iff_toList_le]
         decide
       have hfilter : ([sampleP, sampleU, sampleU2].filter fun r => !r.is_pinned)
           = [sampleU, sampleU2] := by decide
       rw [hfilter]
       simp [List.insertionSort, List.orderedInsert, hns])⟩

/-- C1 counterexample: on the text payload `"日本"` the very first poll
panics inside `detect_content_type` (see C5), so two successive polls
store zero items and emit zero notifications rather than one of each. -/
theorem check_clipboard_claim_cex :
    check_clipboard (fun _ => "h0") (fun _ => "h0")
      { text := some "日本", image := none } "id1" "2024-01-01T00:00:00+00:00"
      { items := [], last_hash := none, events := [] } = PollOutcome.panic := by decide

/-- C1 as amended: for every payload on which classification does not
panic, polling twice with an unchanged clipboard inserts exactly one row
(followed by the cap-100 retention pass), emits exactly one
`clipboard-changed` event, and the second call returns nothing and leaves
the state untouched, because the recomputed hash now equals `last_hash`.
Both the text path and the image path are covered; the freshness
hypothesis on `new_id` models the freshly generated UUID. -/
theorem check_clipboard_dedup (hText : String → String) (hBytes : List Nat → String)
    (clip : ClipContent) (new_id now new_id2 now2 : String) (st : WatcherState) :
    (∀ text : String, clip.text = some text → text ≠ "" →
      st.last_hash ≠ some (hText text) →
      (∀ r ∈ st.items, r.id ≠ new_id) →
      ∀ ct : String, detect_content_type text.data = some ct →
      ∃ item : ClipboardItem,
        item = { id := new_id, content_type := ct, content := text,
                 preview := ⟨create_text_preview text.data⟩, hash := hText text,
                 is_pinned := false, collection_id := none,
                 created_at := now, expires_at := none }
        ∧ check_clipboard hText hBytes clip new_id now st =
            PollOutcome.ok (some item)
              { items := enforce_limit 100 (st.items ++ [item]),
                last_hash := some (hText text), events := st.events ++ [item] }
        ∧ check_clipboard hText hBytes clip new_id2 now2
              { items := enforce_limit 100 (st.items ++ [item]),
                last_hash := some (hText text), events := st.events ++ [item] } =
            PollOutcome.ok none
              { items := enforce_limit 100 (st.items ++ [item]),
                last_hash := some (hText text), events := st.events ++ [item] })
    ∧ (∀ img : ClipImage, (clip.text = none ∨ clip.text = some "") →
      clip.image = some img → img.rgba ≠ [] →
      st.last_hash ≠ some (hBytes img.rgba) →
      (∀ r ∈ st.items, r.id ≠ new_id) →
      ∃ item : ClipboardItem,
        item = { id := new_id, content_type := "image",
                 content := ⟨base64Encode img.rgba⟩,
                 preview := "Image (" ++ toString img.width ++ "x" ++
                   toString img.height ++ ")",
                 hash := hBytes img.rgba, is_pinned := false, collection_id := none,
                 created_at := now, expires_at := none }
        ∧ check_clipboard hText hBytes clip new_id now st =
            PollOutcome.ok (some item)
              { items := enforce_limit 100 (st.items ++ [item]),
                last_hash := some (hBytes img.rgba), events := st.events ++ [item] }
        ∧ check_clipboard hText hBytes clip new_id2 now2
              { items := enforce_limit 100 (st.items ++ [item]),
                last_hash := some (hBytes img.rgba), events := st.events ++ [item] } =
            PollOutcome.ok none
              { items := enforce_limit 100 (st.items ++ [item]),
                last_hash := some (hBytes img.rgba), events := st.events ++ [item] }) := by
  obtain ⟨ctext, cimage⟩ := clip
  constructor
  · intro text htext hne hlast hfresh ct hct
    dsimp only at htext
    subst htext
    have hany : (st.items.any fun r => decide (r.id = new_id)) = false := by
      rw [List.any_eq_false]
      intro r hr hdec
      exact hfresh r hr (of_decide_eq_true hdec)
    refine ⟨_, rfl, ?_, ?_⟩
    · simp only [check_clipboard, if_neg hne, if_neg hlast, hct, insert_item, hany,
        Bool.false_eq_true, if_false]
    · simp only [check_clipboard, if_neg hne]
      simp
  · intro img htext himg hrgba hlast hfresh
    dsimp only at htext himg
    subst himg
    have hany : (st.items.any fun r => decide (r.id = new_id)) = false := by
      rw [List.any_eq_false]
      intro r hr hdec
      exact hfresh r hr (of_decide_eq_true hdec)
    refine ⟨_, rfl, ?_, ?_⟩
    · rcases htext with htext | htext <;> subst htext <;>
        · simp only [check_clipboard, check_image, if_neg hrgba, if_neg hlast,
            insert_item, hany, Bool.false_eq_true, if_false]
          try simp
    · rcases htext with htext | htext <;> subst htext <;>
        · simp only [check_clipboard, check_image, if_neg hrgba]
          try simp

/-- C1 witness: polling twice over the text payload `"hello"` starting
from the empty store. -/
theorem check_clipboard_dedup_witness :
    detect_content_type "hello".data = some "text"
    ∧ ∃ item : ClipboardItem,
        item = { id := "id1", content_type := "text", content := "hello",
                 preview := ⟨create_text_preview "hello".data⟩, hash := "hello",
                 is_pinned := false, collection_id := none,
                 created_at := "2024-01-01T00:00:00+00:00", expires_at := none }
        ∧ check_clipboard (fun s => s) (fun _ => "hb")
              { text := some "hello", image := none } "id1" "2024-01-01T00:00:00+00:00"
              { items := [], last_hash := none, events := [] } =
            PollOutcome.ok (some item)
              { items := enforce_limit 100 ([] ++ [item]),
                last_hash := some "hello", events := [] ++ [item] }
        ∧ check_clipboard (fun s => s) (fun _ => "hb")
              { text := some "hello", image := none } "id2" "2024-01-02T00:00:00+00:00"
              { items := enforce_limit 100 ([] ++ [item]),
                last_hash := some "hello", events := [] ++ [item] } =
            PollOutcome.ok none
              { items := enforce_limit 100 ([] ++ [item]),
                last_hash := some "hello", events := [] ++ [item] } :=
  ⟨by decide,
   (check_clipboard_dedup (fun s => s) (fun _ => "hb")
      { text := some "hello", image := none } "id1" "2024-01-01T00:00:00+00:00"
      "id2" "2024-01-02T00:00:00+00:00"
      { items := [], last_hash := none, events := [] }).1 "hello" rfl
      (by decide) (by decide) (by intro r hr; exact absurd hr (List.not_mem_nil r))
      "text" (by decide)⟩

/-- C8: `paste_item` on a missing id succeeds and performs no clipboard
write; on an existing item with auto-paste enabled, when the clipboard
write and the window hide succeed, a failing
`paste_to_previous_app` (restore-focus / simulate-paste) is swallowed and
the command still returns success. -/
theorem paste_item_spec (env : PasteEnv) (db : List ClipboardItem) (id : String) :
    (get_item db id = none → ∀ ap : Bool, paste_item env db ap id = (Except.ok (), []))
    ∧ (∀ item : ClipboardItem, get_item db id = some item →
       (item.content_type = "image" → env.decode_ok item.content = true →
         env.write_text item.preview = Except.ok ()) →
       (item.content_type ≠ "image" → env.write_text item.content = Except.ok ()) →
       env.hide_window = Except.ok () →
       ∀ e : String, paste_to_previous_app env = Except.error e →
       (paste_item env db true id).1 = Except.ok ()) := by
  constructor
  · intro h ap
    simp only [paste_item, h]
  · intro item hitem him hnim hhide e herr
    by_cases hty : item.content_type = "image"
    · cases hdec : env.decode_ok item.content with
      | true =>
        simp only [paste_item, hitem, if_pos hty, hdec, if_pos rfl, him hty hdec,
          hhide, herr]
        simp
      | false =>
        simp only [paste_item, hitem, if_pos hty, hdec, Bool.false_eq_true, if_false,
          hhide, herr]
        simp
    · simp only [paste_item, hitem, if_neg hty, hnim hty, hhide, herr]
      simp

/-- C8 witness: a store with one row, a missing id, and an environment
whose simulated keystroke fails. -/
theorem paste_item_spec_witness :
    (get_item [sampleU] "zzz" = none
      ∧ paste_item sampleEnv [sampleU] true "zzz" = (Except.ok (), []))
    ∧ (get_item [sampleU] "u1" = some sampleU
      ∧ paste_to_previous_app sampleEnv = Except.error "osascript failed"
      ∧ (paste_item sampleEnv [sampleU] true "u1").1 = Except.ok ()) :=
  ⟨⟨by decide, (paste_item_spec sampleEnv [sampleU] "zzz").1 (by decide) true⟩,
   ⟨by decide, rfl,
    (paste_item_spec sampleEnv [sampleU] "u1").2 sampleU (by decide)
      (by intro h; exact absurd h (by decide)) (by intro _; rfl) rfl
      "osascript failed" rfl⟩⟩

end Yoink
